import Mathlib

/-!
Verification of the `mjcarroll/sdk` repository's remote-trigger protocol and
its leaf utilities against the natural-language specification.

The embedding covers:
* `intrinsic_fbs::CopyFbsVector` from `src/intrinsic/icon/flatbuffers/flatbuffer_utils.h`
  (flatbuffer vectors are modelled as Lean lists; `std::copy` over two
  equal-length ranges is elementwise overwrite of the destination);
* `intrinsic::icon::CycleTimeHistogram` from `src/intrinsic/icon/utils/realtime_metrics.h`
  (`uint32_t` counters are naturals kept below `2 ^ 32` by wrapping on
  increment; `absl::Duration` values are integers in an arbitrary fixed unit);
* `intrinsic::icon::RemoteTriggerServer`: only the header
  `src/intrinsic/icon/interprocess/remote_trigger/remote_trigger_server.h` is
  in the tree, the implementation file is not, so the server's behaviour is
  modelled from the specification (spec.md sections 3 to 5 and 4.1) and the
  header's documentation comments.
-/

/- ===================== flatbuffer_utils.h ===================== -/

/-- Status codes of `intrinsic::icon::RealtimeStatus` used by the embedded
functions (`OkStatus`, `InvalidArgumentError`, `OutOfRangeError`). -/
inductive RealtimeStatusCode where
  | ok
  | invalidArgument
  | outOfRange
deriving DecidableEq, Repr

/-- Embeds `intrinsic_fbs::CopyFbsVector` (flatbuffer_utils.h lines 49 to 59).
If the sizes differ it returns `OutOfRangeError` before touching `to`;
otherwise `std::copy` overwrites each destination element with the
corresponding source element. The pair holds the returned status and the
contents of `to` after the call. -/
def CopyFbsVector {α : Type} (fromVec toVec : List α) :
    RealtimeStatusCode × List α :=
  if fromVec.length ≠ toVec.length then
    (.outOfRange, toVec)
  else
    (.ok, List.zipWith (fun a _ => a) fromVec toVec)

/- ===================== realtime_metrics.h ===================== -/

/-- Modulus of the `uint32_t` counters used by `CycleTimeHistogram`. -/
def U32MOD : Nat := 2 ^ 32

/-- A `uint32_t` increment: `x++` wraps modulo `2 ^ 32`. -/
def incr32 (x : Nat) : Nat := (x + 1) % U32MOD

/-- Embeds the state of `intrinsic::icon::CycleTimeHistogram`
(realtime_metrics.h lines 247 to 275). The template parameter
`kNumBucketsPerCycleDuration` is passed explicitly to the operations; the two
bucket arrays are lists of that length. Durations are integers in a fixed
arbitrary time unit. -/
structure CycleTimeHistogram where
  less_than_cycle_duration_counts : List Nat
  greater_equal_cycle_duration_counts : List Nat
  num_entries_less_than_cycle_duration : Nat
  num_entries_greater_equal_cycle_duration : Nat
  num_overruns : Nat
  max : Int
  configured_cycle_duration : Int
deriving DecidableEq, Repr

/-- Embeds `CycleTimeHistogram::Create` (realtime_metrics.h lines 112 to 120):
rejects a non-positive cycle duration, otherwise returns an empty histogram
with `k` zeroed buckets on each side. -/
def CycleTimeHistogram.Create (k : Nat) (cycle_duration : Int) :
    Except RealtimeStatusCode CycleTimeHistogram :=
  if cycle_duration ≤ 0 then
    .error .invalidArgument
  else
    .ok { less_than_cycle_duration_counts := List.replicate k 0
          greater_equal_cycle_duration_counts := List.replicate k 0
          num_entries_less_than_cycle_duration := 0
          num_entries_greater_equal_cycle_duration := 0
          num_overruns := 0
          max := 0
          configured_cycle_duration := cycle_duration }

/-- Embeds `CycleTimeHistogram::Reset` (realtime_metrics.h lines 128 to 135):
`fill(0)` on both bucket arrays, zeroes the three counters and the maximum,
and leaves `configured_cycle_duration_` untouched. -/
def CycleTimeHistogram.Reset (h : CycleTimeHistogram) : CycleTimeHistogram :=
  { h with
    less_than_cycle_duration_counts :=
      h.less_than_cycle_duration_counts.map fun _ => 0
    greater_equal_cycle_duration_counts :=
      h.greater_equal_cycle_duration_counts.map fun _ => 0
    num_overruns := 0
    num_entries_less_than_cycle_duration := 0
    num_entries_greater_equal_cycle_duration := 0
    max := 0 }

/-- Embeds `CycleTimeHistogram::Add` (realtime_metrics.h lines 139 to 175).
`fraction = (duration * k) / cycle_duration` selects the bucket; the first `k`
fractions land in the less-than array, the next `k` in the greater-equal
array, anything beyond only increments the overrun counter. Counter
increments wrap like `uint32_t`. Returns the status together with the updated
histogram (the receiver is unchanged on the error paths). -/
def CycleTimeHistogram.Add (k : Nat) (h : CycleTimeHistogram)
    (duration : Int) : RealtimeStatusCode × CycleTimeHistogram :=
  if duration ≤ 0 then
    (.invalidArgument, h)
  else if h.configured_cycle_duration ≤ 0 then
    (.invalidArgument, h)
  else
    let h1 := { h with max := Max.max h.max duration }
    let fraction : Int := duration * (k : Int) / h.configured_cycle_duration
    if fraction < (k : Int) then
      (.ok, { h1 with
        num_entries_less_than_cycle_duration :=
          incr32 h1.num_entries_less_than_cycle_duration
        less_than_cycle_duration_counts :=
          h1.less_than_cycle_duration_counts.set fraction.toNat
            (incr32 (h1.less_than_cycle_duration_counts.getD fraction.toNat 0)) })
    else if fraction < 2 * (k : Int) then
      (.ok, { h1 with
        num_entries_greater_equal_cycle_duration :=
          incr32 h1.num_entries_greater_equal_cycle_duration
        greater_equal_cycle_duration_counts :=
          h1.greater_equal_cycle_duration_counts.set (fraction.toNat - k)
            (incr32 (h1.greater_equal_cycle_duration_counts.getD
              (fraction.toNat - k) 0)) })
    else
      (.ok, { h1 with num_overruns := incr32 h1.num_overruns })

/-- Embeds `CycleTimeHistogram::NumberOfOverruns` (realtime_metrics.h 184). -/
def CycleTimeHistogram.NumberOfOverruns (h : CycleTimeHistogram) : Nat :=
  h.num_overruns

/-- Embeds `CycleTimeHistogram::NumberOfEntriesLessThanCycleDuration`
(realtime_metrics.h lines 193 to 196). -/
def CycleTimeHistogram.NumberOfEntriesLessThanCycleDuration
    (h : CycleTimeHistogram) : Nat :=
  h.num_entries_less_than_cycle_duration

/-- Embeds `CycleTimeHistogram::NumberOfEntriesGreaterEqualCycleDuration`
(realtime_metrics.h lines 200 to 203); the `uint32_t` sum wraps. -/
def CycleTimeHistogram.NumberOfEntriesGreaterEqualCycleDuration
    (h : CycleTimeHistogram) : Nat :=
  (h.num_entries_greater_equal_cycle_duration + h.NumberOfOverruns) % U32MOD

/-- Embeds `CycleTimeHistogram::NumEntries` (realtime_metrics.h lines 208 to
211); the `uint32_t` sum wraps. -/
def CycleTimeHistogram.NumEntries (h : CycleTimeHistogram) : Nat :=
  (h.NumberOfEntriesLessThanCycleDuration +
    h.NumberOfEntriesGreaterEqualCycleDuration) % U32MOD

/-- Embeds `CycleTimeHistogram::BucketsLTCycleDuration`
(realtime_metrics.h lines 221 to 225). -/
def CycleTimeHistogram.BucketsLTCycleDuration (h : CycleTimeHistogram) :
    List Nat :=
  h.less_than_cycle_duration_counts

/-- Embeds `CycleTimeHistogram::BucketsGECycleDuration`
(realtime_metrics.h lines 214 to 218). -/
def CycleTimeHistogram.BucketsGECycleDuration (h : CycleTimeHistogram) :
    List Nat :=
  h.greater_equal_cycle_duration_counts

/-- Embeds `CycleTimeHistogram::CycleDuration` (realtime_metrics.h 177). -/
def CycleTimeHistogram.CycleDuration (h : CycleTimeHistogram) : Int :=
  h.configured_cycle_duration

/-- Folds `Add` over a sequence of durations, keeping only the histogram
(each call's status is discarded, exactly as a caller that ignores the
returned `RealtimeStatus` would). -/
def CycleTimeHistogram.AddAll (k : Nat) (h : CycleTimeHistogram)
    (ds : List Int) : CycleTimeHistogram :=
  ds.foldl (fun acc d => (CycleTimeHistogram.Add k acc d).2) h

/-- The bookkeeping identity claimed for `NumEntries`: it equals the sum of
all bucket counts plus the overrun counter, in `uint32_t` arithmetic. -/
def NumEntriesInvariant (h : CycleTimeHistogram) : Prop :=
  h.NumEntries =
    (h.BucketsLTCycleDuration.sum + h.BucketsGECycleDuration.sum +
      h.NumberOfOverruns) % U32MOD

/-- Strengthened invariant carried through the induction: both bucket arrays
have length `k` and each side's entry counter agrees with its bucket sum
modulo `2 ^ 32`. -/
def HistCountersAgree (k : Nat) (h : CycleTimeHistogram) : Prop :=
  h.less_than_cycle_duration_counts.length = k ∧
  h.greater_equal_cycle_duration_counts.length = k ∧
  h.num_entries_less_than_cycle_duration % U32MOD =
    h.less_than_cycle_duration_counts.sum % U32MOD ∧
  h.num_entries_greater_equal_cycle_duration % U32MOD =
    h.greater_equal_cycle_duration_counts.sum % U32MOD

/- ===================== helper lemmas ===================== -/

theorem zipWith_keep_left {α : Type} (xs : List α) : ∀ ys : List α,
    xs.length = ys.length → List.zipWith (fun a _ => a) xs ys = xs := by
  induction xs with
  | nil => intro ys h; simp
  | cons x xs ih =>
    intro ys h
    cases ys with
    | nil => simp at h
    | cons y ys =>
      simp only [List.zipWith_cons_cons, List.cons.injEq, true_and]
      exact ih ys (by simpa using h)

theorem sum_set_getD (l : List Nat) : ∀ i : Nat, i < l.length → ∀ v : Nat,
    (l.set i v).sum + l.getD i 0 = l.sum + v := by
  induction l with
  | nil => intro i h; simp at h
  | cons x xs ih =>
    intro i h v
    cases i with
    | zero => simp [List.set]; omega
    | succ n =>
      simp only [List.set_cons_succ, List.sum_cons, List.getD_cons_succ]
      have := ih n (by simpa using h) v
      omega

theorem sum_map_zero (l : List Nat) : (l.map fun _ => 0).sum = 0 := by
  induction l with
  | nil => rfl
  | cons x xs ih => simp [ih]

theorem histCountersAgree_create (k : Nat) (cd : Int) (h0 : CycleTimeHistogram)
    (hc : CycleTimeHistogram.Create k cd = .ok h0) : HistCountersAgree k h0 := by
  unfold CycleTimeHistogram.Create at hc
  by_cases h : cd ≤ 0
  · simp [h] at hc
  · simp only [h, if_false, Except.ok.injEq] at hc
    subst hc
    simp [HistCountersAgree]

theorem histCountersAgree_add (k : Nat) (h : CycleTimeHistogram) (d : Int)
    (hw : HistCountersAgree k h) :
    HistCountersAgree k (CycleTimeHistogram.Add k h d).2 := by
  obtain ⟨hl1, hl2, he1, he2⟩ := hw
  unfold CycleTimeHistogram.Add
  by_cases hd : d ≤ 0
  · simpa [hd] using ⟨hl1, hl2, he1, he2⟩
  by_cases hcd : h.configured_cycle_duration ≤ 0
  · simpa [hd, hcd] using ⟨hl1, hl2, he1, he2⟩
  simp only [hd, hcd, if_false]
  have hfracnn : 0 ≤ d * (k : Int) / h.configured_cycle_duration :=
    Int.ediv_nonneg (mul_nonneg (by omega) (Int.natCast_nonneg k)) (by omega)
  by_cases hlt : d * (k : Int) / h.configured_cycle_duration < (k : Int)
  · have hidx : (d * (k : Int) / h.configured_cycle_duration).toNat <
        h.less_than_cycle_duration_counts.length := by
      rw [hl1]; omega
    have hsum := sum_set_getD h.less_than_cycle_duration_counts
      (d * (k : Int) / h.configured_cycle_duration).toNat hidx
      (incr32 (h.less_than_cycle_duration_counts.getD
        (d * (k : Int) / h.configured_cycle_duration).toNat 0))
    refine ⟨by simpa [hlt] using hl1, by simpa [hlt] using hl2, ?_, ?_⟩
    · simp only [hlt, if_true, incr32, U32MOD] at *
      omega
    · simpa [hlt] using he2
  by_cases hge : d * (k : Int) / h.configured_cycle_duration < 2 * (k : Int)
  · have hidx : (d * (k : Int) / h.configured_cycle_duration).toNat - k <
        h.greater_equal_cycle_duration_counts.length := by
      rw [hl2]; omega
    have hsum := sum_set_getD h.greater_equal_cycle_duration_counts
      ((d * (k : Int) / h.configured_cycle_duration).toNat - k) hidx
      (incr32 (h.greater_equal_cycle_duration_counts.getD
        ((d * (k : Int) / h.configured_cycle_duration).toNat - k) 0))
    refine ⟨by simpa [hlt, hge] using hl1, by simpa [hlt, hge] using hl2, ?_, ?_⟩
    · simpa [hlt, hge] using he1
    · simp only [hlt, hge, if_false, if_true, incr32, U32MOD] at *
      omega
  · exact ⟨by simpa [hlt, hge] using hl1, by simpa [hlt, hge] using hl2,
      by simpa [hlt, hge] using he1, by simpa [hlt, hge] using he2⟩

theorem histCountersAgree_addAll (k : Nat) (ds : List Int) :
    ∀ h : CycleTimeHistogram, HistCountersAgree k h →
      HistCountersAgree k (CycleTimeHistogram.AddAll k h ds) := by
  induction ds with
  | nil => intro h hw; simpa [CycleTimeHistogram.AddAll] using hw
  | cons d ds ih =>
    intro h hw
    have h1 := histCountersAgree_add k h d hw
    simpa [CycleTimeHistogram.AddAll] using ih _ h1

theorem histCountersAgree_numEntries (k : Nat) (h : CycleTimeHistogram)
    (hw : HistCountersAgree k h) : NumEntriesInvariant h := by
  obtain ⟨_, _, he1, he2⟩ := hw
  unfold NumEntriesInvariant CycleTimeHistogram.NumEntries
    CycleTimeHistogram.NumberOfEntriesLessThanCycleDuration
    CycleTimeHistogram.NumberOfEntriesGreaterEqualCycleDuration
    CycleTimeHistogram.NumberOfOverruns CycleTimeHistogram.BucketsLTCycleDuration
    CycleTimeHistogram.BucketsGECycleDuration at *
  simp only [U32MOD] at *
  omega

theorem numEntries_reset (h : CycleTimeHistogram) :
    NumEntriesInvariant h.Reset := by
  unfold NumEntriesInvariant CycleTimeHistogram.NumEntries
    CycleTimeHistogram.NumberOfEntriesLessThanCycleDuration
    CycleTimeHistogram.NumberOfEntriesGreaterEqualCycleDuration
    CycleTimeHistogram.NumberOfOverruns CycleTimeHistogram.BucketsLTCycleDuration
    CycleTimeHistogram.BucketsGECycleDuration CycleTimeHistogram.Reset
  simp [sum_map_zero]

/- ===================== claims C9 and C10 ===================== -/

/-- C9: for every histogram created via `Create` and every sequence of `Add`
calls (successful or failing), `NumEntries()` equals the sum of the
`BucketsLTCycleDuration()` counts plus the sum of the
`BucketsGECycleDuration()` counts plus `NumberOfOverruns()` (in the
`uint32_t` arithmetic in which `NumEntries()` is computed); the identity
holds initially, after any sequence of `Add` calls, and after `Reset()`,
which zeroes every bucket count, both entry counters and the overrun counter
while leaving `CycleDuration()` unchanged. -/
theorem cycleTimeHistogram_numEntries_invariant (k : Nat) (cd : Int)
    (ds : List Int) (h0 : CycleTimeHistogram)
    (hc : CycleTimeHistogram.Create k cd = .ok h0) :
    NumEntriesInvariant h0 ∧
    NumEntriesInvariant (CycleTimeHistogram.AddAll k h0 ds) ∧
    NumEntriesInvariant (CycleTimeHistogram.AddAll k h0 ds).Reset ∧
    (CycleTimeHistogram.AddAll k h0 ds).Reset.CycleDuration =
      (CycleTimeHistogram.AddAll k h0 ds).CycleDuration ∧
    (∀ c ∈ (CycleTimeHistogram.AddAll k h0 ds).Reset.BucketsLTCycleDuration,
      c = 0) ∧
    (∀ c ∈ (CycleTimeHistogram.AddAll k h0 ds).Reset.BucketsGECycleDuration,
      c = 0) ∧
    (CycleTimeHistogram.AddAll k h0 ds).Reset.NumberOfOverruns = 0 ∧
    (CycleTimeHistogram.AddAll k h0 ds).Reset.NumEntries = 0 := by
  have hw0 := histCountersAgree_create k cd h0 hc
  have hwN := histCountersAgree_addAll k ds h0 hw0
  refine ⟨histCountersAgree_numEntries k h0 hw0,
    histCountersAgree_numEntries k _ hwN, numEntries_reset _, ?_, ?_, ?_, ?_, ?_⟩
  · simp [CycleTimeHistogram.Reset, CycleTimeHistogram.CycleDuration]
  · intro c hcmem
    simp only [CycleTimeHistogram.Reset, CycleTimeHistogram.BucketsLTCycleDuration,
      List.mem_map] at hcmem
    obtain ⟨_, _, hceq⟩ := hcmem
    omega
  · intro c hcmem
    simp only [CycleTimeHistogram.Reset, CycleTimeHistogram.BucketsGECycleDuration,
      List.mem_map] at hcmem
    obtain ⟨_, _, hceq⟩ := hcmem
    omega
  · simp [CycleTimeHistogram.Reset, CycleTimeHistogram.NumberOfOverruns]
  · simp [CycleTimeHistogram.Reset, CycleTimeHistogram.NumEntries,
      CycleTimeHistogram.NumberOfEntriesLessThanCycleDuration,
      CycleTimeHistogram.NumberOfEntriesGreaterEqualCycleDuration,
      CycleTimeHistogram.NumberOfOverruns]

/-- Concrete histogram used by the C9 witness: `Create 2 10` in the model. -/
def histW : CycleTimeHistogram :=
  { less_than_cycle_duration_counts := [0, 0]
    greater_equal_cycle_duration_counts := [0, 0]
    num_entries_less_than_cycle_duration := 0
    num_entries_greater_equal_cycle_duration := 0
    num_overruns := 0
    max := 0
    configured_cycle_duration := 10 }

/-- Witness for C9 at `k = 2`, `cycle_duration = 10` and the `Add` sequence
`[1, 7, 12, 25, -3]` (one per bucket region, one overrun, one failing call). -/
theorem cycleTimeHistogram_numEntries_invariant_witness :
    CycleTimeHistogram.Create 2 10 = .ok histW ∧
    NumEntriesInvariant (CycleTimeHistogram.AddAll 2 histW [1, 7, 12, 25, -3]) :=
  ⟨rfl, (cycleTimeHistogram_numEntries_invariant 2 10 [1, 7, 12, 25, -3] histW
    rfl).2.1⟩

/-- C10: `CopyFbsVector(from, to)` returns `OutOfRangeError` exactly when the
two vectors have different sizes, and leaves `to` unchanged in that case;
when the sizes are equal it returns `OkStatus` and the destination equals the
source elementwise. -/
theorem copyFbsVector_size_check_and_copy {α : Type} (fromVec toVec : List α) :
    ((CopyFbsVector fromVec toVec).1 = .outOfRange ↔
      fromVec.length ≠ toVec.length) ∧
    (fromVec.length ≠ toVec.length →
      (CopyFbsVector fromVec toVec).2 = toVec) ∧
    (fromVec.length = toVec.length →
      CopyFbsVector fromVec toVec = (.ok, fromVec)) := by
  unfold CopyFbsVector
  by_cases h : fromVec.length = toVec.length
  · simp [h, zipWith_keep_left fromVec toVec h]
  · simp [h]

/-- Witness for C10: a successful equal-size copy and a failing call that
leaves the destination unchanged. -/
theorem copyFbsVector_size_check_and_copy_witness :
    CopyFbsVector [1, 2, 3] [4, 5, 6] = (.ok, [1, 2, 3]) ∧
    (CopyFbsVector [1, 2] [4, 5, 6]).2 = [4, 5, 6] :=
  ⟨(copyFbsVector_size_check_and_copy [1, 2, 3] [4, 5, 6]).2.2 (by decide),
    (copyFbsVector_size_check_and_copy [1, 2] [4, 5, 6]).2.1 (by decide)⟩

/- ===================== remote_trigger_server.h ===================== -/

/-- Modelled from the spec: the lifecycle phases of the Remote Trigger Server
(`{NotStarted, RunningSync, RunningAsync, StopRequested, Stopped}`,
spec.md section 3). The implementation file of `RemoteTriggerServer` is not in
the tree (only `remote_trigger_server.h` is), so the whole server model below
follows the spec together with the header's documentation comments. -/
inductive LifecyclePhase where
  | NotStarted
  | RunningSync
  | RunningAsync
  | StopRequested
  | Stopped
deriving DecidableEq, Repr

/-- Modelled from the spec: the observable state of one
`RemoteTriggerServer` handle together with the two shared binary futexes it
is attached to. `loopContexts` counts the execution contexts (sync caller
thread or async worker thread) currently running the server loop;
`asyncThreadJoinable` mirrors joinability of `async_thread_`;
`hasSegments` records whether the handle owns views of the two shared-memory
segments (a moved-from handle does not); `requestSignaled` and
`responseSignaled` are the two coalescing binary futexes; `callbackRuns`
counts completed invocations of the user callback. -/
structure RemoteTriggerServer where
  phase : LifecyclePhase
  asyncThreadJoinable : Bool
  loopContexts : Nat
  hasSegments : Bool
  requestSignaled : Bool
  responseSignaled : Bool
  callbackRuns : Nat
deriving DecidableEq, Repr

/-- Modelled from the spec: `IsStarted()` is true exactly in `RunningSync`
and `RunningAsync` (spec.md section 3). -/
def RemoteTriggerServer.IsStarted (s : RemoteTriggerServer) : Bool :=
  match s.phase with
  | .RunningSync => true
  | .RunningAsync => true
  | _ => false

/-- Modelled from the spec: `IsReadyToStart()` is true only in
`NotStarted`/`Stopped` with no joinable async thread outstanding
(spec.md section 3, header lines 99 to 102). -/
def RemoteTriggerServer.IsReadyToStart (s : RemoteTriggerServer) : Bool :=
  (match s.phase with
   | .NotStarted => true
   | .Stopped => true
   | _ => false) && !s.asyncThreadJoinable

/-- Outcome reported by `Start`/`StartAsync` in the model: the loop was
started, the call was a no-op because the server was already running, or the
call failed with `NotReadyError` because a previously spawned async thread
has not been joined yet. -/
inductive StartOutcome where
  | started
  | noOpAlreadyRunning
  | notReadyError
deriving DecidableEq, Repr

/-- Modelled from the spec: `Start()` (header lines 56 to 62, spec.md 4.1).
A call while already running is a no-op that returns immediately; a call
while not ready to start fails with `NotReadyError`; otherwise the calling
thread becomes the (single) context running the loop. -/
def RemoteTriggerServer.Start (s : RemoteTriggerServer) :
    StartOutcome × RemoteTriggerServer :=
  if s.IsStarted then
    (.noOpAlreadyRunning, s)
  else if !s.IsReadyToStart then
    (.notReadyError, s)
  else
    (.started, { s with phase := .RunningSync, loopContexts := s.loopContexts + 1 })

/-- Modelled from the spec: `StartAsync()` (header lines 64 to 71,
spec.md 4.1). Same gating as `Start()`, but the loop runs on a newly spawned,
internally owned thread, which becomes joinable. -/
def RemoteTriggerServer.StartAsync (s : RemoteTriggerServer) :
    StartOutcome × RemoteTriggerServer :=
  if s.IsStarted then
    (.noOpAlreadyRunning, s)
  else if !s.IsReadyToStart then
    (.notReadyError, s)
  else
    (.started, { s with phase := .RunningAsync, asyncThreadJoinable := true,
                        loopContexts := s.loopContexts + 1 })

/-- Modelled from the spec: `RequestStop()` (header lines 76 to 87). Sets the
cooperative stop flag: a running server enters `StopRequested`; the call has
no effect if the server is already stopped (idempotent). -/
def RemoteTriggerServer.RequestStop (s : RemoteTriggerServer) :
    RemoteTriggerServer :=
  if s.IsStarted then { s with phase := .StopRequested } else s

/-- Modelled from the spec: the internal step in which the server loop
observes the stop request and exits (spec.md section 3 lifecycle,
`StopRequested` to `Stopped`); the execution context running the loop ends. -/
def RemoteTriggerServer.LoopExit (s : RemoteTriggerServer) :
    RemoteTriggerServer :=
  if s.phase = .StopRequested then
    { s with phase := .Stopped, loopContexts := s.loopContexts - 1 }
  else s

/-- Modelled from the spec: `JoinAsyncThread()` (header lines 89 to 97).
No-op if no async thread was spawned or it was already joined; otherwise it
blocks until the loop has exited and then reclaims the thread. -/
def RemoteTriggerServer.JoinAsyncThread (s : RemoteTriggerServer) :
    RemoteTriggerServer :=
  if s.asyncThreadJoinable ∧ s.phase = .Stopped then
    { s with asyncThreadJoinable := false }
  else if s.asyncThreadJoinable ∧ s.phase = .StopRequested then
    { s with phase := .Stopped, asyncThreadJoinable := false,
             loopContexts := s.loopContexts - 1 }
  else s

/-- Modelled from the spec: `Query()` (header lines 104 to 107, spec.md 4.1).
A single non-blocking check of the request futex: while started it does
nothing and returns false; otherwise, if the request futex is signaled it
consumes it, runs the callback, posts the response futex and returns true,
else it returns false without invoking the callback. -/
def RemoteTriggerServer.Query (s : RemoteTriggerServer) :
    Bool × RemoteTriggerServer :=
  if s.IsStarted then
    (false, s)
  else if s.requestSignaled then
    (true, { s with requestSignaled := false,
                    callbackRuns := s.callbackRuns + 1,
                    responseSignaled := true })
  else
    (false, s)

/-- Modelled from the spec: the well-defined empty state a moved-from handle
is left in (`NotStarted`/empty, spec.md section 3 invariant 3). -/
def RemoteTriggerServer.moved : RemoteTriggerServer :=
  { phase := .NotStarted
    asyncThreadJoinable := false
    loopContexts := 0
    hasSegments := false
    requestSignaled := false
    responseSignaled := false
    callbackRuns := 0 }

/-- Modelled from the spec: move construction / move assignment
`b = move(a)` (header lines 46 to 52, spec.md design note on move-only
lifecycle). Moving stops the source instance, detaches its resources and
attaches them to the destination, which is left `NotStarted` and must be
explicitly (re)started; the moved-from handle is left `NotStarted`/empty.
The first component is the moved-from handle, the second the destination. -/
def RemoteTriggerServer.MoveFrom (a : RemoteTriggerServer) :
    RemoteTriggerServer × RemoteTriggerServer :=
  (RemoteTriggerServer.moved,
   { phase := .NotStarted
     asyncThreadJoinable := false
     loopContexts := 0
     hasSegments := a.hasSegments
     requestSignaled := a.requestSignaled
     responseSignaled := a.responseSignaled
     callbackRuns := a.callbackRuns })

/-- Modelled from the spec: the state of a server handle that `Create` has
just returned: attached to both segments, not started, no thread, no pending
signals. -/
def RemoteTriggerServer.initial : RemoteTriggerServer :=
  { phase := .NotStarted
    asyncThreadJoinable := false
    loopContexts := 0
    hasSegments := true
    requestSignaled := false
    responseSignaled := false
    callbackRuns := 0 }

/-- Modelled from the spec: one loop iteration of a started server that
observes a pending request: it consumes the request futex, runs the callback
and posts the response futex (spec.md 4.1 loop algorithm). Identity when the
server is not started. -/
def RemoteTriggerServer.LoopServe (s : RemoteTriggerServer) :
    RemoteTriggerServer :=
  if s.IsStarted ∧ s.requestSignaled then
    { s with requestSignaled := false,
             callbackRuns := s.callbackRuns + 1,
             responseSignaled := true }
  else s

/-- Modelled from the spec: a client posts the request futex (coalescing
binary semaphore: posting while signaled keeps it signaled). -/
def RemoteTriggerServer.ClientPost (s : RemoteTriggerServer) :
    RemoteTriggerServer :=
  { s with requestSignaled := true }

/-- Modelled from the spec: a client's wait consumes a posted response. -/
def RemoteTriggerServer.ClientConsumeResponse (s : RemoteTriggerServer) :
    RemoteTriggerServer :=
  { s with responseSignaled := false }

/-- The states a server handle can reach through any interleaving of the
modelled operations, internal loop steps and client-side futex activity. -/
inductive Reachable : RemoteTriggerServer → Prop where
  | init : Reachable RemoteTriggerServer.initial
  | start {s} : Reachable s → Reachable s.Start.2
  | startAsync {s} : Reachable s → Reachable s.StartAsync.2
  | requestStop {s} : Reachable s → Reachable s.RequestStop
  | loopExit {s} : Reachable s → Reachable s.LoopExit
  | joinAsyncThread {s} : Reachable s → Reachable s.JoinAsyncThread
  | query {s} : Reachable s → Reachable s.Query.2
  | loopServe {s} : Reachable s → Reachable s.LoopServe
  | clientPost {s} : Reachable s → Reachable s.ClientPost
  | clientConsumeResponse {s} : Reachable s → Reachable s.ClientConsumeResponse
  | moveSrc {s} : Reachable s → Reachable s.MoveFrom.1
  | moveDst {s} : Reachable s → Reachable s.MoveFrom.2

/-- The loop-context bookkeeping invariant: exactly one execution context
runs the loop in `RunningSync`, `RunningAsync` and `StopRequested` (the loop
is still winding down in the latter), and none otherwise. -/
def ContextInv (s : RemoteTriggerServer) : Prop :=
  s.loopContexts =
    match s.phase with
    | .RunningSync => 1
    | .RunningAsync => 1
    | .StopRequested => 1
    | _ => 0

theorem reachable_contextInv (s : RemoteTriggerServer) (h : Reachable s) :
    ContextInv s := by
  induction h with
  | init => simp [ContextInv, RemoteTriggerServer.initial]
  | start hs ih =>
    rename_i s
    revert ih
    obtain ⟨ph, aj, lc, hsg, rq, rs, cb⟩ := s
    cases ph <;> cases aj <;>
      simp_all [ContextInv, RemoteTriggerServer.Start,
        RemoteTriggerServer.IsStarted, RemoteTriggerServer.IsReadyToStart]
  | startAsync hs ih =>
    rename_i s
    revert ih
    obtain ⟨ph, aj, lc, hsg, rq, rs, cb⟩ := s
    cases ph <;> cases aj <;>
      simp_all [ContextInv, RemoteTriggerServer.StartAsync,
        RemoteTriggerServer.IsStarted, RemoteTriggerServer.IsReadyToStart]
  | requestStop hs ih =>
    rename_i s
    revert ih
    obtain ⟨ph, aj, lc, hsg, rq, rs, cb⟩ := s
    cases ph <;>
      simp_all [ContextInv, RemoteTriggerServer.RequestStop,
        RemoteTriggerServer.IsStarted]
  | loopExit hs ih =>
    rename_i s
    revert ih
    obtain ⟨ph, aj, lc, hsg, rq, rs, cb⟩ := s
    cases ph <;>
      simp_all [ContextInv, RemoteTriggerServer.LoopExit]
  | joinAsyncThread hs ih =>
    rename_i s
    revert ih
    obtain ⟨ph, aj, lc, hsg, rq, rs, cb⟩ := s
    cases ph <;> cases aj <;>
      simp_all [ContextInv, RemoteTriggerServer.JoinAsyncThread]
  | query hs ih =>
    rename_i s
    revert ih
    obtain ⟨ph, aj, lc, hsg, rq, rs, cb⟩ := s
    cases ph <;> cases rq <;>
      simp_all [ContextInv, RemoteTriggerServer.Query,
        RemoteTriggerServer.IsStarted]
  | loopServe hs ih =>
    rename_i s
    revert ih
    obtain ⟨ph, aj, lc, hsg, rq, rs, cb⟩ := s
    cases ph <;> cases rq <;>
      simp_all [ContextInv, RemoteTriggerServer.LoopServe,
        RemoteTriggerServer.IsStarted]
  | clientPost hs ih =>
    rename_i s
    revert ih
    obtain ⟨ph, aj, lc, hsg, rq, rs, cb⟩ := s
    cases ph <;> simp_all [ContextInv, RemoteTriggerServer.ClientPost]
  | clientConsumeResponse hs ih =>
    rename_i s
    revert ih
    obtain ⟨ph, aj, lc, hsg, rq, rs, cb⟩ := s
    cases ph <;> simp_all [ContextInv, RemoteTriggerServer.ClientConsumeResponse]
  | moveSrc hs ih =>
    rename_i s
    simp [ContextInv, RemoteTriggerServer.MoveFrom, RemoteTriggerServer.moved]
  | moveDst hs ih =>
    rename_i s
    simp [ContextInv, RemoteTriggerServer.MoveFrom]

/- ===================== claims C3, C4, C5 ===================== -/

/-- C3: after `b = move(a)` of a started server `a`, the moved-from handle
satisfies `IsStarted() == false` and is left in the `NotStarted`/empty state,
while the destination is not started, does not serve requests (a loop serve
step on it is a no-op) and must be explicitly started — it is, however,
ready to start. The model has no copy operation, matching the deleted copy
constructor and copy assignment in the header (lines 47 to 48). -/
theorem remoteTriggerServer_move_semantics (a : RemoteTriggerServer)
    (_ha : a.IsStarted = true) :
    a.MoveFrom.1.IsStarted = false ∧
    a.MoveFrom.1 = RemoteTriggerServer.moved ∧
    a.MoveFrom.2.IsStarted = false ∧
    a.MoveFrom.2.LoopServe = a.MoveFrom.2 ∧
    a.MoveFrom.2.IsReadyToStart = true := by
  refine ⟨rfl, rfl, rfl, ?_, rfl⟩
  simp [RemoteTriggerServer.MoveFrom, RemoteTriggerServer.LoopServe,
    RemoteTriggerServer.IsStarted]

/-- Witness for C3: moving a concretely started server. -/
theorem remoteTriggerServer_move_semantics_witness :
    RemoteTriggerServer.initial.Start.2.IsStarted = true ∧
    RemoteTriggerServer.initial.Start.2.MoveFrom.1.IsStarted = false :=
  ⟨by decide,
    (remoteTriggerServer_move_semantics RemoteTriggerServer.initial.Start.2
      (by decide)).1⟩

/-- C4: on every reachable server handle, a `Start()` or `StartAsync()` call
while the server is already running is a no-op — it returns immediately with
an unchanged state, so no second loop or thread is created and the first
loop is undisturbed — and in every reachable state at most one execution
context runs the server loop. -/
theorem remoteTriggerServer_start_noop_and_single_context
    (s : RemoteTriggerServer) (hr : Reachable s) :
    (s.IsStarted = true →
      s.Start = (.noOpAlreadyRunning, s) ∧
      s.StartAsync = (.noOpAlreadyRunning, s)) ∧
    s.loopContexts ≤ 1 := by
  have hinv := reachable_contextInv s hr
  constructor
  · intro hs
    constructor <;>
      simp [RemoteTriggerServer.Start, RemoteTriggerServer.StartAsync, hs]
  · unfold ContextInv at hinv
    cases hphase : s.phase <;> simp [hphase] at hinv <;> omega

/-- Witness for C4: a concretely started reachable server. -/
theorem remoteTriggerServer_start_noop_and_single_context_witness :
    RemoteTriggerServer.initial.Start.2.Start =
      (.noOpAlreadyRunning, RemoteTriggerServer.initial.Start.2) ∧
    RemoteTriggerServer.initial.Start.2.loopContexts ≤ 1 :=
  ⟨((remoteTriggerServer_start_noop_and_single_context _
      (Reachable.start Reachable.init)).1 (by decide)).1,
    (remoteTriggerServer_start_noop_and_single_context _
      (Reachable.start Reachable.init)).2⟩

/-- C5: a server started with `StartAsync()` and then stopped via
`RequestStop()` cannot be restarted before `JoinAsyncThread()`: both before
and after the async loop has actually exited, `Start()` and `StartAsync()`
fail with `NotReadyError`; once the thread is joined, starting succeeds
again. -/
theorem remoteTriggerServer_restart_requires_join (s : RemoteTriggerServer)
    (hready : s.IsReadyToStart = true) :
    (s.StartAsync.2.RequestStop.Start).1 = .notReadyError ∧
    (s.StartAsync.2.RequestStop.StartAsync).1 = .notReadyError ∧
    (s.StartAsync.2.RequestStop.LoopExit.Start).1 = .notReadyError ∧
    (s.StartAsync.2.RequestStop.LoopExit.StartAsync).1 = .notReadyError ∧
    (s.StartAsync.2.RequestStop.LoopExit.JoinAsyncThread.Start).1 =
      .started := by
  unfold RemoteTriggerServer.IsReadyToStart at hready
  obtain ⟨ph, aj, lc, hsg, rq, rs, cb⟩ := s
  cases ph <;>
    simp_all [RemoteTriggerServer.StartAsync, RemoteTriggerServer.RequestStop,
      RemoteTriggerServer.LoopExit, RemoteTriggerServer.Start,
      RemoteTriggerServer.JoinAsyncThread, RemoteTriggerServer.IsStarted,
      RemoteTriggerServer.IsReadyToStart]

/-- Witness for C5: the fresh handle returned by `Create`. -/
theorem remoteTriggerServer_restart_requires_join_witness :
    RemoteTriggerServer.initial.IsReadyToStart = true ∧
    (RemoteTriggerServer.initial.StartAsync.2.RequestStop.Start).1 =
      .notReadyError :=
  ⟨by decide,
    (remoteTriggerServer_restart_requires_join RemoteTriggerServer.initial
      (by decide)).1⟩

/- ===================== loop timing model (C6) ===================== -/

/-- Modelled from the spec: the server loop of a started server with no
pending request, after `RequestStop()` was called at absolute time
`stopTime`. Each iteration performs a bounded wait of at most `pollInterval`
on the request futex (a periodically-retried short timeout, spec.md section 9
design note) and then checks the stop flag; `now` is the absolute time at
the start of the current wait. Returns the absolute time at which the loop
exits. -/
def loopExitTime (pollInterval : Nat) (hp : 0 < pollInterval)
    (stopTime now : Nat) : Nat :=
  if stopTime ≤ now + pollInterval then
    now + pollInterval
  else
    loopExitTime pollInterval hp stopTime (now + pollInterval)
termination_by stopTime - now
decreasing_by omega

theorem loopExitTime_le (p : Nat) (hp : 0 < p) (stopTime : Nat) :
    ∀ now, now ≤ stopTime → loopExitTime p hp stopTime now ≤ stopTime + p := by
  have H : ∀ fuel now, stopTime - now ≤ fuel → now ≤ stopTime →
      loopExitTime p hp stopTime now ≤ stopTime + p := by
    intro fuel
    induction fuel with
    | zero =>
      intro now hf hn
      unfold loopExitTime
      have hc : stopTime ≤ now + p := by omega
      simp only [hc, if_true]
      omega
    | succ f ih =>
      intro now hf hn
      unfold loopExitTime
      by_cases hc : stopTime ≤ now + p
      · simp only [hc, if_true]; omega
      · simp only [hc, if_false]
        exact ih (now + p) (by omega) (by omega)
  intro now hn
  exact H (stopTime - now) now le_rfl hn

/- ===================== loop trace model (C1, C2) ===================== -/

/-- Modelled from the spec: what the server loop observes in one iteration.
`request = some id` means the bounded wait on the request futex returned
signaled for the request posted by trigger `id`; `none` means the wait timed
out with no pending request. `stopFlag` is the value of the cooperative stop
flag at the post-wait check. -/
structure LoopInput where
  request : Option Nat
  stopFlag : Bool
deriving DecidableEq, Repr

/-- Events emitted by the server loop: a completed callback invocation for a
request and a post of the response futex for a request. -/
inductive ServerEvent where
  | callbackRun (id : Nat)
  | postResponse (id : Nat)
deriving DecidableEq, Repr

/-- Modelled from the spec: the loop algorithm shared by `Start`/`StartAsync`
(spec.md 4.1): repeat { wait on the request futex (bounded); if stop was
requested, break without consuming a pending request; otherwise invoke the
callback and then post the response futex unconditionally — the callback has
type `void(void)`, so there is no failure it could return that would skip
the response }. The result is the trace of events emitted while consuming
the iteration inputs. -/
def runLoop : List LoopInput → List ServerEvent
  | [] => []
  | i :: rest =>
    if i.stopFlag then
      []
    else
      match i.request with
      | some id => .callbackRun id :: .postResponse id :: runLoop rest
      | none => runLoop rest

/-- The ids of the callback invocations in a trace, in order. -/
def callbackIds (tr : List ServerEvent) : List Nat :=
  tr.filterMap fun e =>
    match e with
    | .callbackRun id => some id
    | _ => none

/-- The ids of the response posts in a trace, in order. -/
def responseIds (tr : List ServerEvent) : List Nat :=
  tr.filterMap fun e =>
    match e with
    | .postResponse id => some id
    | _ => none

/-- The requests the loop observes: every signaled wait before the first
iteration at which the stop flag is seen set. -/
def observedRequests (inputs : List LoopInput) : List Nat :=
  (inputs.takeWhile fun i => !i.stopFlag).filterMap fun i => i.request

theorem runLoop_callbackIds (inputs : List LoopInput) :
    callbackIds (runLoop inputs) = observedRequests inputs := by
  induction inputs with
  | nil => rfl
  | cons i rest ih =>
    by_cases hstop : i.stopFlag
    · simp [runLoop, observedRequests, callbackIds, hstop]
    · cases hreq : i.request with
      | none =>
        simpa [runLoop, observedRequests, callbackIds, hstop, hreq,
          List.takeWhile_cons] using ih
      | some id =>
        simpa [runLoop, observedRequests, callbackIds, hstop, hreq,
          List.takeWhile_cons] using ih

theorem runLoop_responseIds (inputs : List LoopInput) :
    responseIds (runLoop inputs) = observedRequests inputs := by
  induction inputs with
  | nil => rfl
  | cons i rest ih =>
    by_cases hstop : i.stopFlag
    · simp [runLoop, observedRequests, responseIds, hstop]
    · cases hreq : i.request with
      | none =>
        simpa [runLoop, observedRequests, responseIds, hstop, hreq,
          List.takeWhile_cons] using ih
      | some id =>
        simpa [runLoop, observedRequests, responseIds, hstop, hreq,
          List.takeWhile_cons] using ih

theorem runLoop_responses_le_callbacks (inputs : List LoopInput) :
    ∀ t1 t2 : List ServerEvent, runLoop inputs = t1 ++ t2 →
      (responseIds t1).length ≤ (callbackIds t1).length := by
  induction inputs with
  | nil =>
    intro t1 t2 h
    have ht : t1 = [] := by cases t1 <;> simp_all [runLoop]
    subst ht
    simp [responseIds, callbackIds]
  | cons i rest ih =>
    intro t1 t2 h
    by_cases hstop : i.stopFlag
    · simp only [runLoop, hstop, if_true] at h
      have ht : t1 = [] := by cases t1 <;> simp_all
      subst ht
      simp [responseIds, callbackIds]
    · cases hreq : i.request with
      | none =>
        simp only [runLoop, hstop, if_false, hreq] at h
        exact ih t1 t2 h
      | some id =>
        simp [runLoop, hstop, hreq] at h
        cases t1 with
        | nil => simp [responseIds, callbackIds]
        | cons a t1' =>
          cases t1' with
          | nil =>
            simp only [List.cons_append, List.nil_append,
              List.cons.injEq] at h
            obtain ⟨ha, hrest⟩ := h
            subst ha
            simp [responseIds, callbackIds]
          | cons b t1'' =>
            simp only [List.cons_append, List.cons.injEq] at h
            obtain ⟨ha, hb, hrest⟩ := h
            subst ha
            subst hb
            have hx := ih t1'' t2 hrest
            simp only [responseIds, callbackIds, List.filterMap_cons] at *
            simpa using hx

theorem takeWhile_all {α : Type} (p : α → Bool) :
    ∀ l : List α, (∀ a ∈ l, p a = true) → l.takeWhile p = l := by
  intro l
  induction l with
  | nil => intro _; rfl
  | cons a l ih =>
    intro h
    have ha := h a (by simp)
    simp [List.takeWhile_cons, ha, ih fun b hb => h b (by simp [hb])]

/- ===================== claims C1, C2 ===================== -/

/-- C1: for every request observed by the server — by the loop run via
`Start()`/`StartAsync()` or by `Query()` — the response futex is posted
exactly once, strictly after the callback invocation for that request has
completed: in the loop trace the response posts match the callback runs
one-to-one and in order, every observed request is answered (never skipped,
and the callback type `void(void)` gives it no way to suppress the post),
and in every prefix of the trace the number of posted responses never
exceeds the number of completed callbacks (never before). `Query()` likewise
posts the response exactly when it ran the callback. -/
theorem remoteTrigger_response_after_each_request (inputs : List LoopInput) :
    responseIds (runLoop inputs) = callbackIds (runLoop inputs) ∧
    responseIds (runLoop inputs) = observedRequests inputs ∧
    (∀ t1 t2 : List ServerEvent, runLoop inputs = t1 ++ t2 →
      (responseIds t1).length ≤ (callbackIds t1).length) ∧
    (∀ s : RemoteTriggerServer, s.IsStarted = false → s.Query.1 = true →
      s.Query.2.responseSignaled = true ∧
      s.Query.2.callbackRuns = s.callbackRuns + 1) := by
  refine ⟨?_, runLoop_responseIds inputs,
    runLoop_responses_le_callbacks inputs, ?_⟩
  · rw [runLoop_responseIds inputs, runLoop_callbackIds inputs]
  · intro s hs hq
    unfold RemoteTriggerServer.Query at *
    by_cases hr : s.requestSignaled <;> simp_all

/-- Witness for C1 on a concrete schedule (two observed requests, then a
stop with a pending unconsumed request) and a concrete `Query` call. -/
theorem remoteTrigger_response_after_each_request_witness :
    responseIds (runLoop [⟨some 7, false⟩, ⟨none, false⟩, ⟨some 9, true⟩]) =
      observedRequests [⟨some 7, false⟩, ⟨none, false⟩, ⟨some 9, true⟩] ∧
    (responseIds [ServerEvent.callbackRun 7]).length ≤
      (callbackIds [ServerEvent.callbackRun 7]).length ∧
    (⟨.NotStarted, false, 0, true, true, false, 0⟩ :
      RemoteTriggerServer).Query.2.responseSignaled = true :=
  ⟨(remoteTrigger_response_after_each_request _).2.1,
    (remoteTrigger_response_after_each_request
      [⟨some 7, false⟩, ⟨none, false⟩, ⟨some 9, true⟩]).2.2.1
      [ServerEvent.callbackRun 7] [ServerEvent.postResponse 7] (by decide),
    ((remoteTrigger_response_after_each_request []).2.2.2
      ⟨.NotStarted, false, 0, true, true, false, 0⟩ (by decide) (by decide)).1⟩

/-- C2: for any sequence of `N` sequential, non-overlapping `Trigger` calls
from a single client against a started server (each trigger is observed as
its own wake of the loop, with no stop request during the run), the callback
runs exactly `N` times, once per trigger, in submission order. -/
theorem remoteTrigger_sequential_triggers (inputs : List LoopInput)
    (ids : List Nat) (hrun : ∀ i ∈ inputs, i.stopFlag = false)
    (hreq : inputs.filterMap (fun i => i.request) = ids) :
    callbackIds (runLoop inputs) = ids ∧
    (callbackIds (runLoop inputs)).length = ids.length := by
  have htake : (inputs.takeWhile fun i => !i.stopFlag) = inputs :=
    takeWhile_all _ inputs fun i hi => by simp [hrun i hi]
  have hobs : observedRequests inputs = ids := by
    unfold observedRequests
    rw [htake, hreq]
  rw [runLoop_callbackIds inputs, hobs]
  exact ⟨rfl, rfl⟩

/-- Witness for C2: three loop wakes, two of them observing the two
sequential triggers. -/
theorem remoteTrigger_sequential_triggers_witness :
    callbackIds (runLoop [⟨some 1, false⟩, ⟨none, false⟩, ⟨some 2, false⟩]) =
      [1, 2] :=
  (remoteTrigger_sequential_triggers
    [⟨some 1, false⟩, ⟨none, false⟩, ⟨some 2, false⟩] [1, 2]
    (by decide) (by decide)).1

/- ===================== claims C6, C7 ===================== -/

/-- C6: with the loop's wait on the request futex being a periodically
retried bounded wait of at most `pollInterval` (never an infinite wait), a
server with no pending request whose stop was requested at time `stopTime`
exits its loop no later than `stopTime + pollInterval` — within one bounded
poll interval, not indefinitely. -/
theorem remoteTriggerServer_stop_exits_within_poll (pollInterval : Nat)
    (stopTime : Nat) (hp : 0 < pollInterval) :
    loopExitTime pollInterval hp stopTime 0 ≤ stopTime + pollInterval :=
  loopExitTime_le pollInterval hp stopTime 0 (Nat.zero_le stopTime)

/-- Witness for C6 with a 5-unit poll interval and a stop at time 12. -/
theorem remoteTriggerServer_stop_exits_within_poll_witness :
    0 < 5 ∧ loopExitTime 5 (Nat.succ_pos 4) 12 0 ≤ 12 + 5 :=
  ⟨Nat.succ_pos 4, remoteTriggerServer_stop_exits_within_poll 5 12 (Nat.succ_pos 4)⟩

/-- Iterates `Query()` `n` times, collecting the returned booleans. -/
def queryRepeat : Nat → RemoteTriggerServer → List Bool × RemoteTriggerServer
  | 0, s => ([], s)
  | n + 1, s =>
    let r := s.Query
    let rest := queryRepeat n r.2
    (r.1 :: rest.1, rest.2)

theorem query_idle (s : RemoteTriggerServer) (h1 : s.IsStarted = false)
    (h2 : s.requestSignaled = false) : s.Query = (false, s) := by
  unfold RemoteTriggerServer.Query
  simp [h1, h2]

theorem queryRepeat_idle (n : Nat) (s : RemoteTriggerServer)
    (h1 : s.IsStarted = false) (h2 : s.requestSignaled = false) :
    queryRepeat n s = (List.replicate n false, s) := by
  induction n with
  | zero => rfl
  | succ m ih => simp [queryRepeat, query_idle s h1 h2, ih, List.replicate_succ]

/-- C7: `Query()` never suspends — it is a single non-blocking check.
Called while the server is started it returns false and leaves the state
(including the callback-run count) untouched; called while not started with
no pending request it returns false immediately without invoking the
callback; called while not started after a single `Post()` on the request
side it runs the callback, posts the response and returns true, and any
number of further `Query()` calls all return false without running the
callback again — true exactly once per post. -/
theorem remoteTriggerServer_query_single_check (s : RemoteTriggerServer)
    (n : Nat) :
    (s.IsStarted = true → s.Query = (false, s)) ∧
    (s.IsStarted = false → s.requestSignaled = false →
      s.Query = (false, s)) ∧
    (s.IsStarted = false → s.requestSignaled = true →
      s.Query.1 = true ∧
      s.Query.2.callbackRuns = s.callbackRuns + 1 ∧
      s.Query.2.responseSignaled = true ∧
      s.Query.2.requestSignaled = false ∧
      queryRepeat n s.Query.2 = (List.replicate n false, s.Query.2)) := by
  refine ⟨?_, ?_, ?_⟩
  · intro hs
    unfold RemoteTriggerServer.Query
    simp [hs]
  · exact query_idle s
  · intro hs hr
    have hq : s.Query =
        (true, { s with requestSignaled := false,
                        callbackRuns := s.callbackRuns + 1,
                        responseSignaled := true }) := by
      unfold RemoteTriggerServer.Query
      simp [hs, hr]
    refine ⟨by rw [hq], by rw [hq], by rw [hq], by rw [hq], ?_⟩
    refine queryRepeat_idle n s.Query.2 ?_ ?_
    · rw [hq]
      unfold RemoteTriggerServer.IsStarted at *
      simpa using hs
    · rw [hq]

/-- Witness for C7: a non-started server with a posted request answers the
first `Query()` with true and the next three with false. -/
theorem remoteTriggerServer_query_single_check_witness :
    (⟨.NotStarted, false, 0, true, true, false, 0⟩ :
      RemoteTriggerServer).Query.1 = true ∧
    queryRepeat 3 (⟨.NotStarted, false, 0, true, true, false, 0⟩ :
      RemoteTriggerServer).Query.2 =
      (List.replicate 3 false,
        (⟨.NotStarted, false, 0, true, true, false, 0⟩ :
          RemoteTriggerServer).Query.2) :=
  ⟨((remoteTriggerServer_query_single_check
      ⟨.NotStarted, false, 0, true, true, false, 0⟩ 3).2.2
      (by decide) (by decide)).1,
    ((remoteTriggerServer_query_single_check
      ⟨.NotStarted, false, 0, true, true, false, 0⟩ 3).2.2
      (by decide) (by decide)).2.2.2.2⟩

/- ===================== claim C8 ===================== -/

/-- Modelled from the spec: access direction with which a shared-memory
segment is opened (spec.md section 6, Segment Provider contract). -/
inductive AccessMode where
  | readOnly
  | readWrite
deriving DecidableEq, Repr

/-- Modelled from the spec: the two ways opening a segment fails — the
segment is absent, or it has the wrong shape/type (spec.md section 6). -/
inductive SegmentError where
  | notFound
  | typeMismatch
deriving DecidableEq, Repr

/-- Modelled from the spec: the shared-memory segment provider
(`SharedMemoryManager` in the header): opening a named, typed region with a
requested access mode either yields a segment handle (an abstract
identifier) or reports the mismatch as an error. -/
structure SharedMemoryManager where
  openSegment : String → AccessMode → Except SegmentError Nat

/-- Modelled from the spec: the request-segment name derived from the
channel name by a fixed suffix (spec.md section 6 naming convention). -/
def requestSegmentName (channelName : String) : String :=
  channelName ++ "_request"

/-- Modelled from the spec: the response-segment name derived from the
channel name by a fixed suffix. -/
def responseSegmentName (channelName : String) : String :=
  channelName ++ "_response"

/-- The two futex segment views held by a fully constructed server: the
request futex opened read-only, the response futex opened read-write
(header lines 117 to 129). -/
structure ServerSegments where
  requestSegment : Nat
  responseSegment : Nat
deriving DecidableEq, Repr

/-- Modelled from the spec: `RemoteTriggerServer::Create` (header lines 41
to 44, spec.md 4.1): opens the two convention-named segments with the
correct access directions and fails with the provider's configuration error
if either open fails; a server value is produced only when both opens
succeed. -/
def RemoteTriggerServerCreate (shm : SharedMemoryManager)
    (channelName : String) : Except SegmentError ServerSegments :=
  match shm.openSegment (requestSegmentName channelName) .readOnly with
  | .error e => .error e
  | .ok rq =>
    match shm.openSegment (responseSegmentName channelName) .readWrite with
    | .error e => .error e
    | .ok rs => .ok { requestSegment := rq, responseSegment := rs }

/-- C8: `Create` is all-or-nothing. It returns a server exactly when both
convention-derived segments were opened with the correct access direction
(request read-only, response read-write), and the returned server holds
precisely those two segments; if either segment is absent or mismatched,
the configuration error is propagated and no server object is produced. -/
theorem remoteTriggerServer_create_all_or_nothing (shm : SharedMemoryManager)
    (channelName : String) :
    (∀ srv : ServerSegments,
      RemoteTriggerServerCreate shm channelName = .ok srv ↔
        (shm.openSegment (requestSegmentName channelName) .readOnly =
            .ok srv.requestSegment ∧
         shm.openSegment (responseSegmentName channelName) .readWrite =
            .ok srv.responseSegment)) ∧
    (∀ e, shm.openSegment (requestSegmentName channelName) .readOnly =
        .error e →
      RemoteTriggerServerCreate shm channelName = .error e) ∧
    (∀ rq e,
      shm.openSegment (requestSegmentName channelName) .readOnly = .ok rq →
      shm.openSegment (responseSegmentName channelName) .readWrite =
        .error e →
      RemoteTriggerServerCreate shm channelName = .error e) := by
  unfold RemoteTriggerServerCreate
  cases hrq : shm.openSegment (requestSegmentName channelName) .readOnly with
  | error e =>
    refine ⟨fun srv => by simp, fun e' he' => by simp_all, fun rq e' h1 h2 => by simp_all⟩
  | ok rq =>
    cases hrs : shm.openSegment (responseSegmentName channelName) .readWrite with
    | error e =>
      refine ⟨fun srv => by simp, fun e' he' => by simp_all, fun rq' e' h1 h2 => by simp_all⟩
    | ok rs =>
      refine ⟨fun srv => ?_, fun e' he' => by simp_all, fun rq' e' h1 h2 => by simp_all⟩
      obtain ⟨a, b⟩ := srv
      simp [ServerSegments.mk.injEq]

/-- Provider used by the C8 witness: only the two correctly named segments
with the correct access directions exist. -/
def sampleManager : SharedMemoryManager :=
  { openSegment := fun nm mode =>
      if nm = "chan_request" ∧ mode = .readOnly then .ok 1
      else if nm = "chan_response" ∧ mode = .readWrite then .ok 2
      else .error .notFound }

/-- Witness for C8: with both segments present, `Create` returns the server
holding exactly those segments. -/
theorem remoteTriggerServer_create_all_or_nothing_witness :
    RemoteTriggerServerCreate sampleManager "chan" = .ok ⟨1, 2⟩ :=
  ((remoteTriggerServer_create_all_or_nothing sampleManager "chan").1
    ⟨1, 2⟩).mpr ⟨by rfl, by rfl⟩
